import Mathlib

/-!
Verification of the OLED-Care overlay manager against its specification.

The development shallowly embeds the Rust sources:
* `src/overlay/config.rs`   — `OverlayConfig`, `OverlayState`
* `src/overlay/manager.rs`  — `OverlayManager::{new, activate, deactivate,
                               update_opacity, active_count, register_hwnd}`
* `src/overlay/window.rs`   — `register_overlay_class`, `create_win32_overlay`,
                               `wnd_proc`, `spawn_overlay`
* `src/ui/controller.rs`    — `Controller` state and its event handlers
* `src/ui/monitor_list.rs`  — monitor-row / checkbox click handlers
* `src/ui/components/slider.rs` — `opacity_from_mouse`, slider handlers

Native windowing calls (spawning a thread, `PostMessageW`, `tx.send`) are
modelled as effects collected in a list; the outcome of the bounded
`recv_timeout` on window-handle delivery is an oracle `recv : Nat → Option Nat`
(`none` = timeout).  A Rust panic (out-of-bounds slice index) is modelled by
an `Option` result, `none` meaning the call panics.  `f32` arithmetic in the
slider is modelled by exact rationals.
-/

namespace OLEDCare

/-- `MonitorInfo` from `src/monitor/types.rs`. -/
structure MonitorInfo where
  name : String
  x : Int
  y : Int
  width : Int
  height : Int
  hmonitor : Int
deriving DecidableEq, Inhabited

/-- `OverlayConfig` from `src/overlay/config.rs` (opacity is a `u8`). -/
structure OverlayConfig where
  opacity : Nat
  x : Int
  y : Int
  width : Int
  height : Int
deriving DecidableEq, Inhabited

/-- `OverlayState` from `src/overlay/config.rs`: `hwnd` holds the window
handle pointer (a `usize` in the source), `handle` the thread join handle
(its identity is irrelevant, so it is modelled by `Unit`). -/
structure OverlayState where
  hwnd : Option Nat
  handle : Option Unit
deriving DecidableEq, Inhabited

/-- Effects emitted by manager operations: spawning an overlay thread
(`spawn_overlay`), sending an `(index, ptr)` pair on the main channel
(`hwnd_tx.send`), and the two `PostMessageW` calls (`WM_CLOSE` and
`WM_UPDATE_OPACITY`). -/
inductive Effect where
  | spawn (i : Nat) (cfg : OverlayConfig)
  | sendMain (i : Nat) (ptr : Nat)
  | postClose (hwnd : Nat)
  | postOpacity (hwnd : Nat) (opacity : Nat)
deriving DecidableEq

/-- `OverlayManager::new`: one default (all-`None`) state per monitor. -/
def newManager (monitor_count : Nat) : List OverlayState :=
  List.replicate monitor_count ⟨none, none⟩

/-- The `OverlayConfig` built inside `OverlayManager::activate` for monitor
`mon` at the given opacity. -/
def mkConfig (opacity : Nat) (mon : MonitorInfo) : OverlayConfig :=
  ⟨opacity, mon.x, mon.y, mon.width, mon.height⟩

/-- The timeout (in seconds) of the `recv_timeout` used by
`OverlayManager::activate` while waiting for a freshly spawned overlay's
window handle (`Duration::from_secs(2)` in the source). -/
def RECV_TIMEOUT_SECS : Nat := 2

/-- One iteration of the loop body of `OverlayManager::activate` at index
`i`.  Mirrors the source order of accesses: `selected[i]` (panic when out of
bounds), then `self.states[i].hwnd.is_none()` (panic when out of bounds),
then `&monitors[i]`, then `spawn_overlay`, then the bounded receive; on a
timely receive `hwnd` is set and `(i, ptr)` is sent on the main channel;
`handle` is set unconditionally after spawning. -/
def activateBody (monitors : List MonitorInfo) (selected : List Bool)
    (opacity : Nat) (recv : Nat → Option Nat)
    (states : List OverlayState) (i : Nat) :
    Option (List OverlayState × List Effect) :=
  match selected[i]? with
  | none => none
  | some sel =>
    if sel then
      match states[i]? with
      | none => none
      | some st =>
        if st.hwnd.isNone then
          match monitors[i]? with
          | none => none
          | some mon =>
            let cfg := mkConfig opacity mon
            match recv i with
            | some ptr =>
              some (states.set i { st with hwnd := some ptr, handle := some () },
                    [Effect.spawn i cfg, Effect.sendMain i ptr])
            | none =>
              some (states.set i { st with handle := some () },
                    [Effect.spawn i cfg])
        else some (states, [])
    else some (states, [])

/-- The loop of `OverlayManager::activate` over a list of indices. -/
def activateGo (monitors : List MonitorInfo) (selected : List Bool)
    (opacity : Nat) (recv : Nat → Option Nat) :
    List Nat → List OverlayState → Option (List OverlayState × List Effect)
  | [], states => some (states, [])
  | i :: rest, states =>
    match activateBody monitors selected opacity recv states i with
    | none => none
    | some (states1, effs1) =>
      match activateGo monitors selected opacity recv rest states1 with
      | none => none
      | some (states2, effs2) => some (states2, effs1 ++ effs2)

/-- `OverlayManager::activate`: loop over `0..monitors.len()`. -/
def activate (states : List OverlayState) (monitors : List MonitorInfo)
    (selected : List Bool) (opacity : Nat) (recv : Nat → Option Nat) :
    Option (List OverlayState × List Effect) :=
  activateGo monitors selected opacity recv (List.range monitors.length) states

/-- `OverlayManager::deactivate`: post `WM_CLOSE` to each live `hwnd` and
clear both fields of every state. -/
def deactivate (states : List OverlayState) :
    List OverlayState × List Effect :=
  (states.map (fun _ => ⟨none, none⟩),
   states.filterMap (fun s => s.hwnd.map Effect.postClose))

/-- `OverlayManager::update_opacity`: takes `&self`, posting
`WM_UPDATE_OPACITY` to each live `hwnd`; it returns effects only. -/
def update_opacity (states : List OverlayState) (opacity : Nat) :
    List Effect :=
  states.filterMap (fun s => s.hwnd.map (fun h => Effect.postOpacity h opacity))

/-- `OverlayManager::active_count`. -/
def active_count (states : List OverlayState) : Nat :=
  (states.filter (fun s => s.hwnd.isSome)).length

/-- `OverlayManager::register_hwnd`: silently ignores out-of-range indices. -/
def register_hwnd (states : List OverlayState) (index ptr : Nat) :
    List OverlayState :=
  if h : index < states.length then
    states.set index { states.get ⟨index, h⟩ with hwnd := some ptr }
  else states

/-- A manager operation (the public mutating interface of `OverlayManager`). -/
inductive MOp where
  | activate (monitors : List MonitorInfo) (selected : List Bool)
      (opacity : Nat) (recv : Nat → Option Nat)
  | deactivate
  | update_opacity (opacity : Nat)
  | register_hwnd (index ptr : Nat)

/-- Step function over manager states; `none` models a Rust panic. -/
def mstep (states : List OverlayState) : MOp → Option (List OverlayState × List Effect)
  | MOp.activate monitors selected opacity recv =>
      activate states monitors selected opacity recv
  | MOp.deactivate => some (deactivate states)
  | MOp.update_opacity o => some (states, update_opacity states o)
  | MOp.register_hwnd i ptr => some (register_hwnd states i ptr, [])

/-- Whether an operation is a `register_hwnd` call. -/
def isRegisterOp : MOp → Bool
  | MOp.register_hwnd _ _ => true
  | _ => false

/-- States reachable through any sequence of `new`, `activate`, `deactivate`,
`update_opacity` and `register_hwnd` calls. -/
inductive ReachableAll : List OverlayState → Prop where
  | new (n : Nat) : ReachableAll (newManager n)
  | step {s : List OverlayState} {op : MOp} {s2 : List OverlayState}
      {effs : List Effect} : ReachableAll s → mstep s op = some (s2, effs) →
      ReachableAll s2

/-- States reachable without direct `register_hwnd` calls. -/
inductive ReachableCore : List OverlayState → Prop where
  | new (n : Nat) : ReachableCore (newManager n)
  | step {s : List OverlayState} {op : MOp} {s2 : List OverlayState}
      {effs : List Effect} : ReachableCore s → isRegisterOp op = false →
      mstep s op = some (s2, effs) → ReachableCore s2

/-! ### Win32 window layer (`src/overlay/window.rs`)

The style flags, message numbers and `HWND_TOPMOST` sentinel are the values
of the external Win32 API (as re-exported by the `windows` crate). -/

def WS_EX_LAYERED : Nat := 0x00080000
def WS_EX_TRANSPARENT : Nat := 0x00000020
def WS_EX_TOPMOST : Nat := 0x00000008
def WS_EX_TOOLWINDOW : Nat := 0x00000080
def WS_EX_NOACTIVATE : Nat := 0x08000000
def WS_POPUP : Nat := 0x80000000
def WS_DISABLED : Nat := 0x08000000
def LWA_ALPHA : Nat := 0x00000002
def HWND_TOPMOST : Int := -1
def SWP_SHOWWINDOW : Nat := 0x0040
def SWP_NOACTIVATE : Nat := 0x0010
def WM_USER : Nat := 0x0400
def WM_PAINT : Nat := 0x000F
def WM_DESTROY : Nat := 0x0002
def WM_CLOSE : Nat := 0x0010

/-- `WM_UPDATE_OPACITY = WM_USER + 1` from `src/overlay/window.rs`. -/
def WM_UPDATE_OPACITY : Nat := WM_USER + 1

/-- The window-manager-visible attributes `create_win32_overlay` gives the
overlay window: the extended and plain styles passed to `CreateWindowExW`,
the geometry, the `SetLayeredWindowAttributes` alpha and flags, and the
`SetWindowPos` insert-after handle and flags. -/
structure WindowSpec where
  exStyle : Nat
  style : Nat
  x : Int
  y : Int
  width : Int
  height : Int
  alpha : Nat
  alphaFlags : Nat
  insertAfter : Int
  posFlags : Nat
deriving DecidableEq

/-- The `WindowSpec` assembled by `create_win32_overlay` for a config. -/
def overlaySpec (cfg : OverlayConfig) : WindowSpec :=
  { exStyle := WS_EX_LAYERED ||| WS_EX_TRANSPARENT ||| WS_EX_TOPMOST |||
      WS_EX_TOOLWINDOW ||| WS_EX_NOACTIVATE
  , style := WS_POPUP ||| WS_DISABLED
  , x := cfg.x
  , y := cfg.y
  , width := cfg.width
  , height := cfg.height
  , alpha := cfg.opacity
  , alphaFlags := LWA_ALPHA
  , insertAfter := HWND_TOPMOST
  , posFlags := SWP_SHOWWINDOW ||| SWP_NOACTIVATE }

/-- `create_win32_overlay`: `createdHwnd` is the outcome of the external
`CreateWindowExW` call (`none` = the call returned an error, `some 0` = it
returned a null handle).  On success the result carries the handle, the
window attributes applied, and the list of pointers sent on `hwnd_tx`. -/
def create_win32_overlay (cfg : OverlayConfig) (createdHwnd : Option Nat) :
    Except String (Nat × WindowSpec × List Nat) :=
  match createdHwnd with
  | none => Except.error "CreateWindowExW failed"
  | some h =>
    if h = 0 then Except.error "Failed to create overlay window"
    else Except.ok (h, overlaySpec cfg, [h])

/-- Action taken by `wnd_proc` on a message. -/
inductive WndAction where
  | paint (brushColor : Nat)
  | setOpacity (alpha : Nat) (flags : Nat)
  | postQuit
  | defProc
deriving DecidableEq

/-- `wnd_proc` from `src/overlay/window.rs`: paints solid black on
`WM_PAINT`, reapplies the layered alpha (the `WPARAM` truncated to `u8`) on
`WM_UPDATE_OPACITY`, quits on `WM_DESTROY`, defers otherwise. -/
def wnd_proc (msg : Nat) (wparam : Nat) : WndAction :=
  if msg = WM_PAINT then WndAction.paint 0x00000000
  else if msg = WM_UPDATE_OPACITY then WndAction.setOpacity (wparam % 256) LWA_ALPHA
  else if msg = WM_DESTROY then WndAction.postQuit
  else WndAction.defProc

/-- The lines printed by the closure run by `spawn_overlay`: the `Err` of
`create_win32_overlay`, if any, via `eprintln`. -/
def overlayThreadOutput (cfg : OverlayConfig) (createdHwnd : Option Nat) :
    List String :=
  match create_win32_overlay cfg createdHwnd with
  | Except.ok _ => []
  | Except.error e => ["Overlay thread error: " ++ e]

/-- Termination of one overlay thread in a system whose observable state is
the manager's states plus the stderr log: the closure run by `spawn_overlay`
only prints (the thread owns no reference to the manager). -/
def threadFinish (states : List OverlayState) (log : List String)
    (cfg : OverlayConfig) (createdHwnd : Option Nat) :
    List OverlayState × List String :=
  (states, log ++ overlayThreadOutput cfg createdHwnd)

/-- Global `WINDOW_CLASS_ATOM` cell (a `u16`, zero = not yet registered). -/
structure ClassState where
  atom : Nat
deriving DecidableEq

/-- `register_overlay_class`: `registerClassResult` is the atom returned by
the external `RegisterClassW` call (truncated to `u16`; zero = failure).
Result: new cell value, success flag (`Ok`/`Err`), and the number of
`RegisterClassW` attempts made. -/
def register_overlay_class (s : ClassState) (registerClassResult : Nat) :
    ClassState × Bool × Nat :=
  if s.atom ≠ 0 then (s, true, 0)
  else
    let atom := registerClassResult % 65536
    if atom = 0 then (s, false, 1)
    else ({ atom := atom }, true, 1)

/-! ### Slider (`src/ui/components/slider.rs`)

The `f32` arithmetic of `opacity_from_mouse` is modelled by exact rational
arithmetic. -/

/-- The captured slider track bounds: window-space origin x and width. -/
structure SliderBounds where
  originX : ℚ
  width : ℚ
deriving DecidableEq

/-- Rust `f32::clamp(0.0, 1.0)` (exact-arithmetic model):
`min (max x lo) hi`. -/
def clamp01 (q : ℚ) : ℚ := min (max q 0) 1

/-- Rust `f32::round` (exact-arithmetic model): rounds half away from
zero, whereas Mathlib `round` rounds half up; they agree on nonnegative
arguments. -/
def rustRound (q : ℚ) : ℤ := if 0 ≤ q then round q else -(round (-q))

/-- Rust `as u8` on a float value already rounded to an integer: the cast
saturates at the bounds of `u8`. -/
def u8cast (z : ℤ) : Nat := (min 255 (max 0 z)).toNat

/-- `opacity_from_mouse` from `src/ui/components/slider.rs`. -/
def opacity_from_mouse (mouse_x : ℚ) (slider_bounds : Option SliderBounds) :
    Option Nat :=
  match slider_bounds with
  | none => none
  | some bounds =>
    let relative_x := mouse_x - bounds.originX
    let fraction := clamp01 (relative_x / bounds.width)
    some (u8cast (rustRound (fraction * 255)))

/-- The preset-button target value
`((percent as f32 / 100.0) * 255.0).round() as u8`. -/
def presetTarget (percent : Nat) : Nat :=
  u8cast (rustRound ((percent : ℚ) / 100 * 255))

/-! ### UI controller (`src/ui/controller.rs`, `src/ui/monitor_list.rs`) -/

/-- The `Controller` state: monitor list, per-monitor selection flags,
activity flag, the manager's states, current opacity, the pending
`(index, ptr)` notifications in the `hwnd` channel, and the cached slider
bounds. -/
structure Controller where
  monitors : List MonitorInfo
  selected : List Bool
  overlays_active : Bool
  states : List OverlayState
  opacity : Nat
  pending : List (Nat × Nat)
  slider_bounds : Option SliderBounds

/-- `Controller::new`. -/
def newController (monitors : List MonitorInfo) : Controller :=
  { monitors := monitors
  , selected := List.replicate monitors.length false
  , overlays_active := false
  , states := newManager monitors.length
  , opacity := 50
  , pending := []
  , slider_bounds := none }

/-- UI events handled by the controller's listeners, plus the
channel-draining step at the top of `Controller::render`.  `toggleSwitch`
carries the receive oracle consumed by a possible `activate`. -/
inductive UIEvent where
  | rowClick (i : Nat)
  | checkboxClick (i : Nat)
  | toggleSwitch (recv : Nat → Option Nat)
  | sliderMouseDown (x : ℚ)
  | sliderMouseMove (x : ℚ) (leftPressed : Bool)
  | presetClick (percent : Nat)
  | prepaintBounds (b : SliderBounds)
  | renderDrain

/-- The toggle performed by the monitor-row and checkbox listeners:
`this.selected[idx] = !this.selected[idx]` (panics when out of bounds),
guarded by `!this.overlays_active`. -/
def toggleSelected (c : Controller) (i : Nat) :
    Option (Controller × List Effect) :=
  if c.overlays_active then some (c, [])
  else if h : i < c.selected.length then
    some ({ c with selected := c.selected.set i (!(c.selected.get ⟨i, h⟩)) }, [])
  else none

/-- The `(index, ptr)` pairs an `activate` run pushed onto the main
channel. -/
def sentPairs (effs : List Effect) : List (Nat × Nat) :=
  effs.filterMap (fun e =>
    match e with
    | Effect.sendMain i ptr => some (i, ptr)
    | _ => none)

/-- The opacity-setting body shared by the slider mouse-down and mouse-move
listeners. -/
def sliderSet (c : Controller) (x : ℚ) : Controller × List Effect :=
  match opacity_from_mouse x c.slider_bounds with
  | none => (c, [])
  | some v =>
    if v ≠ c.opacity then
      ({ c with opacity := v },
       if c.overlays_active then update_opacity c.states v else [])
    else (c, [])

/-- One UI event step of the controller; `none` models a Rust panic. -/
def uiStep (c : Controller) : UIEvent → Option (Controller × List Effect)
  | UIEvent.rowClick i => toggleSelected c i
  | UIEvent.checkboxClick i => toggleSelected c i
  | UIEvent.toggleSwitch recv =>
    if c.overlays_active then
      some ({ c with states := (deactivate c.states).1, overlays_active := false },
            (deactivate c.states).2)
    else if c.selected.any id then
      match activate c.states c.monitors c.selected c.opacity recv with
      | none => none
      | some (st2, effs) =>
        some ({ c with
                overlays_active := true
                states := st2
                pending := c.pending ++ sentPairs effs }, effs)
    else some (c, [])
  | UIEvent.sliderMouseDown x => some (sliderSet c x)
  | UIEvent.sliderMouseMove x leftPressed =>
    if leftPressed then some (sliderSet c x) else some (c, [])
  | UIEvent.presetClick percent =>
    some ({ c with opacity := presetTarget percent },
          if c.overlays_active then update_opacity c.states (presetTarget percent)
          else [])
  | UIEvent.prepaintBounds b => some ({ c with slider_bounds := some b }, [])
  | UIEvent.renderDrain =>
    some ({ c with
            states := c.pending.foldl (fun st p => register_hwnd st p.1 p.2) c.states
          , pending := [] }, [])

/-! ### Characterisation of `activate` -/

/-- Whether the `activate` loop spawns an overlay at index `i`: the monitor
is selected and has no recorded window handle. -/
def wantsSpawn (selected : List Bool) (states : List OverlayState) (i : Nat) :
    Bool :=
  selected.getD i false && (states.getD i default).hwnd.isNone

/-- Index carried by a `spawn` effect. -/
def spawnIdx : Effect → Option Nat
  | Effect.spawn i _ => some i
  | _ => none

/-- Entry `i` after an `activate` pass over the original `states`. -/
def afterActivate (selected : List Bool) (recv : Nat → Option Nat)
    (states : List OverlayState) (i : Nat) : OverlayState :=
  let st := states.getD i default
  if wantsSpawn selected states i then
    match recv i with
    | some ptr => { st with hwnd := some ptr, handle := some () }
    | none => { st with handle := some () }
  else st

/-- The effect trace an `activate` pass emits for a list of indices,
expressed against the original `states`. -/
def plannedEffects (monitors : List MonitorInfo) (selected : List Bool)
    (opacity : Nat) (recv : Nat → Option Nat) (states : List OverlayState) :
    List Nat → List Effect
  | [] => []
  | i :: rest =>
    (if wantsSpawn selected states i then
      match recv i with
      | some ptr => [Effect.spawn i (mkConfig opacity (monitors.getD i default)),
                     Effect.sendMain i ptr]
      | none => [Effect.spawn i (mkConfig opacity (monitors.getD i default))]
     else []) ++ plannedEffects monitors selected opacity recv states rest

theorem wantsSpawn_congr {selected : List Bool} {s1 s2 : List OverlayState}
    {i : Nat} (h : s1.getD i default = s2.getD i default) :
    wantsSpawn selected s1 i = wantsSpawn selected s2 i := by
  unfold wantsSpawn
  rw [h]

theorem afterActivate_congr {selected : List Bool} {recv : Nat → Option Nat}
    {s1 s2 : List OverlayState} {i : Nat}
    (h : s1.getD i default = s2.getD i default) :
    afterActivate selected recv s1 i = afterActivate selected recv s2 i := by
  unfold afterActivate
  rw [h, wantsSpawn_congr h]

theorem plannedEffects_congr {monitors : List MonitorInfo}
    {selected : List Bool} {opacity : Nat} {recv : Nat → Option Nat}
    {s1 s2 : List OverlayState} :
    ∀ {is : List Nat},
    (∀ i ∈ is, s1.getD i default = s2.getD i default) →
    plannedEffects monitors selected opacity recv s1 is =
      plannedEffects monitors selected opacity recv s2 is
  | [], _ => rfl
  | i :: rest, h => by
    have hi : s1.getD i default = s2.getD i default := h i (by simp)
    have hrest : ∀ j ∈ rest, s1.getD j default = s2.getD j default :=
      fun j hj => h j (by simp [hj])
    simp only [plannedEffects, wantsSpawn_congr hi,
      plannedEffects_congr hrest]

/-- Master characterisation of the `activate` loop: with in-bounds indices
and no index repeated, the loop cannot panic, its effect trace is
`plannedEffects`, and the final states are described pointwise by
`afterActivate`. -/
theorem activateGo_spec (monitors : List MonitorInfo) (selected : List Bool)
    (opacity : Nat) (recv : Nat → Option Nat) :
    ∀ (is : List Nat) (states : List OverlayState), is.Nodup →
    (∀ i ∈ is, i < monitors.length ∧ i < selected.length ∧ i < states.length) →
    ∃ st2, activateGo monitors selected opacity recv is states =
        some (st2, plannedEffects monitors selected opacity recv states is) ∧
      st2.length = states.length ∧
      (∀ j, st2[j]? = if j ∈ is then some (afterActivate selected recv states j)
                      else states[j]?) := by
  intro is
  induction is with
  | nil =>
    intro states _ _
    refine ⟨states, rfl, rfl, fun j => ?_⟩
    simp
  | cons i rest ih =>
    intro states hnodup hbounds
    obtain ⟨him, his, hist⟩ := hbounds i (by simp)
    have hnotin : i ∉ rest := by
      intro hmem
      exact (List.nodup_cons.mp hnodup).1 hmem
    have hnd : rest.Nodup := hnodup.of_cons
    have hselq : selected[i]? = some (selected.getD i false) := by
      rw [List.getD_eq_getElem?_getD, List.getElem?_eq_getElem his]
      rfl
    have hstq : states[i]? = some (states.getD i default) := by
      rw [List.getD_eq_getElem?_getD, List.getElem?_eq_getElem hist]
      rfl
    by_cases hsel : selected.getD i false = true
    · by_cases hhw : (states.getD i default).hwnd.isNone = true
      · -- the spawning branch
        have hmonq : monitors[i]? = some (monitors.getD i default) := by
          rw [List.getD_eq_getElem?_getD, List.getElem?_eq_getElem him]
          rfl
        have hws : wantsSpawn selected states i = true := by
          unfold wantsSpawn
          rw [hsel, hhw]
          rfl
        -- per `recv i` outcome: the updated entry and the emitted effects
        obtain ⟨stN, effs1, hbody, haft, heffs1⟩ :
            ∃ (stN : OverlayState) (effs1 : List Effect),
              activateBody monitors selected opacity recv states i =
                some (states.set i stN, effs1) ∧
              stN = afterActivate selected recv states i ∧
              effs1 ++ plannedEffects monitors selected opacity recv states rest =
                plannedEffects monitors selected opacity recv states (i :: rest) := by
          cases hrecv : recv i with
          | some ptr =>
            refine ⟨{ states.getD i default with
                      hwnd := some ptr, handle := some () },
              [Effect.spawn i (mkConfig opacity (monitors.getD i default)),
               Effect.sendMain i ptr], ?_, ?_, ?_⟩
            · unfold activateBody
              rw [hselq, hstq, hmonq]
              simp only [hsel, if_true, hhw, hrecv]
            · unfold afterActivate
              rw [hws, hrecv]
              rfl
            · simp only [plannedEffects, hws, if_true, hrecv]
          | none =>
            refine ⟨{ states.getD i default with handle := some () },
              [Effect.spawn i (mkConfig opacity (monitors.getD i default))],
              ?_, ?_, ?_⟩
            · unfold activateBody
              rw [hselq, hstq, hmonq]
              simp only [hsel, if_true, hhw, hrecv]
            · unfold afterActivate
              rw [hws, hrecv]
              rfl
            · simp only [plannedEffects, hws, if_true, hrecv]
        have hset_len : (states.set i stN).length = states.length :=
          List.length_set states i stN
        have hgetD_set : ∀ j ∈ rest,
            (states.set i stN).getD j default = states.getD j default := by
          intro j hj
          have hne : i ≠ j := fun h => hnotin (h ▸ hj)
          rw [List.getD_eq_getElem?_getD, List.getD_eq_getElem?_getD,
            List.getElem?_set_ne hne]
        obtain ⟨st2, hgo, hlen, hpt⟩ := ih (states.set i stN) hnd
          (fun j hj => by
            obtain ⟨h1, h2, h3⟩ := hbounds j (by simp [hj])
            exact ⟨h1, h2, by rwa [hset_len]⟩)
        refine ⟨st2, ?_, by rw [hlen, hset_len], ?_⟩
        · show activateGo monitors selected opacity recv (i :: rest) states = _
          unfold activateGo
          rw [hbody]
          simp only [hgo, plannedEffects_congr hgetD_set, ← heffs1]
        · intro j
          by_cases hj : j = i
          · subst hj
            rw [hpt j, if_neg hnotin, List.getElem?_set_eq_of_lt stN hist,
              if_pos (by simp), haft]
          · rw [hpt j]
            by_cases hjr : j ∈ rest
            · rw [if_pos hjr, if_pos (by simp [hjr]),
                afterActivate_congr (hgetD_set j hjr)]
            · rw [if_neg hjr, if_neg (by simp [hj, hjr]),
                List.getElem?_set_ne (fun h => hj h.symm)]
      · -- selected but already has a window handle: nothing happens
        have hhw2 : (states.getD i default).hwnd.isNone = false := by
          revert hhw
          cases (states.getD i default).hwnd.isNone <;> simp
        have hws : wantsSpawn selected states i = false := by
          unfold wantsSpawn
          rw [hsel, hhw2]
          rfl
        have hbody : activateBody monitors selected opacity recv states i =
            some (states, []) := by
          unfold activateBody
          rw [hselq, hstq]
          simp only [hsel, if_true, hhw2, Bool.false_eq_true, if_false]
        obtain ⟨st2, hgo, hlen, hpt⟩ := ih states hnd
          (fun j hj => hbounds j (by simp [hj]))
        refine ⟨st2, ?_, hlen, ?_⟩
        · show activateGo monitors selected opacity recv (i :: rest) states = _
          unfold activateGo
          rw [hbody]
          simp only [hgo, plannedEffects, hws, if_false, Bool.false_eq_true,
            List.nil_append]
        · intro j
          by_cases hj : j = i
          · subst hj
            rw [hpt j, if_neg hnotin, if_pos (by simp)]
            unfold afterActivate
            rw [hws]
            simp only [Bool.false_eq_true, if_false]
            exact hstq
          · rw [hpt j]
            by_cases hjr : j ∈ rest
            · rw [if_pos hjr, if_pos (by simp [hjr])]
            · rw [if_neg hjr, if_neg (by simp [hj, hjr])]
    · -- not selected: nothing happens
      have hsel2 : selected.getD i false = false := by
        simpa using hsel
      have hws : wantsSpawn selected states i = false := by
        unfold wantsSpawn
        rw [hsel2]
        rfl
      have hbody : activateBody monitors selected opacity recv states i =
          some (states, []) := by
        unfold activateBody
        rw [hselq, hsel2]
        rfl
      obtain ⟨st2, hgo, hlen, hpt⟩ := ih states hnd
        (fun j hj => hbounds j (by simp [hj]))
      refine ⟨st2, ?_, hlen, ?_⟩
      · show activateGo monitors selected opacity recv (i :: rest) states = _
        unfold activateGo
        rw [hbody]
        simp only [hgo, plannedEffects, hws, if_false, Bool.false_eq_true,
          List.nil_append]
      · intro j
        by_cases hj : j = i
        · subst hj
          rw [hpt j, if_neg hnotin, if_pos (by simp)]
          unfold afterActivate
          rw [hws]
          simp only [Bool.false_eq_true, if_false]
          exact hstq
        · rw [hpt j]
          by_cases hjr : j ∈ rest
          · rw [if_pos hjr, if_pos (by simp [hjr])]
          · rw [if_neg hjr, if_neg (by simp [hj, hjr])]

/-! ### Panic analysis of `activate` -/

theorem activateBody_none_iff (monitors : List MonitorInfo)
    (selected : List Bool) (opacity : Nat) (recv : Nat → Option Nat)
    (states : List OverlayState) (i : Nat) (hm : i < monitors.length) :
    activateBody monitors selected opacity recv states i = none ↔
      (selected.length ≤ i ∨
       (selected.getD i false = true ∧ states.length ≤ i)) := by
  by_cases his : i < selected.length
  · have hselq : selected[i]? = some (selected.getD i false) := by
      rw [List.getD_eq_getElem?_getD, List.getElem?_eq_getElem his]
      rfl
    by_cases hsel : selected.getD i false = true
    · by_cases hst : i < states.length
      · -- no panic possible in this configuration
        have hstq : states[i]? = some (states.getD i default) := by
          rw [List.getD_eq_getElem?_getD, List.getElem?_eq_getElem hst]
          rfl
        have hmonq : monitors[i]? = some (monitors.getD i default) := by
          rw [List.getD_eq_getElem?_getD, List.getElem?_eq_getElem hm]
          rfl
        have hne : activateBody monitors selected opacity recv states i ≠
            none := by
          unfold activateBody
          rw [hselq, hstq, hmonq]
          simp only [hsel, if_true]
          cases hh : (states.getD i default).hwnd.isNone
          · simp
          · simp only [if_true]
            cases recv i <;> simp
        exact iff_of_false hne (by rintro (hle | ⟨_, hst2⟩) <;> omega)
      · -- panic: selected index out of range of the states vector
        have hnone : activateBody monitors selected opacity recv states i =
            none := by
          unfold activateBody
          rw [hselq, hsel, List.getElem?_eq_none (show states.length ≤ i by omega)]
          rfl
        exact iff_of_true hnone (Or.inr ⟨hsel, by omega⟩)
    · -- not selected: no panic
      have hsel2 : selected.getD i false = false := by
        simpa using hsel
      have hne : activateBody monitors selected opacity recv states i ≠
          none := by
        unfold activateBody
        rw [hselq, hsel2]
        simp
      refine iff_of_false hne ?_
      rintro (hle | ⟨hsel3, _⟩)
      · omega
      · exact hsel hsel3
  · -- panic: index out of range of the selection slice
    have hnone : activateBody monitors selected opacity recv states i =
        none := by
      unfold activateBody
      rw [List.getElem?_eq_none (show selected.length ≤ i by omega)]
    exact iff_of_true hnone (Or.inl (by omega))

theorem activateBody_some_length {monitors : List MonitorInfo}
    {selected : List Bool} {opacity : Nat} {recv : Nat → Option Nat}
    {states : List OverlayState} {i : Nat} {s1 : List OverlayState}
    {effs : List Effect}
    (h : activateBody monitors selected opacity recv states i = some (s1, effs)) :
    s1.length = states.length := by
  unfold activateBody at h
  repeat' split at h
  all_goals
    first
      | exact Option.noConfusion h
      | (simp only [Option.some.injEq, Prod.mk.injEq] at h
         obtain ⟨h1, h2⟩ := h
         subst h1
         simp [List.length_set])

theorem activateBody_getElem_ne {monitors : List MonitorInfo}
    {selected : List Bool} {opacity : Nat} {recv : Nat → Option Nat}
    {states : List OverlayState} {i : Nat} {s1 : List OverlayState}
    {effs : List Effect}
    (h : activateBody monitors selected opacity recv states i = some (s1, effs)) :
    ∀ k, k ≠ i → s1[k]? = states[k]? := by
  intro k hk
  unfold activateBody at h
  repeat' split at h
  all_goals
    first
      | exact Option.noConfusion h
      | (simp only [Option.some.injEq, Prod.mk.injEq] at h
         obtain ⟨h1, h2⟩ := h
         subst h1
         first
           | rfl
           | exact List.getElem?_set_ne (fun hik => hk hik.symm))

theorem activateGo_none_iff (monitors : List MonitorInfo)
    (selected : List Bool) (opacity : Nat) (recv : Nat → Option Nat) :
    ∀ (is : List Nat) (states : List OverlayState),
    (∀ i ∈ is, i < monitors.length) →
    (activateGo monitors selected opacity recv is states = none ↔
      ∃ i ∈ is, selected.length ≤ i ∨
        (selected.getD i false = true ∧ states.length ≤ i)) := by
  intro is
  induction is with
  | nil =>
    intro states _
    simp [activateGo]
  | cons i rest ih =>
    intro states hb
    have hm : i < monitors.length := hb i (by simp)
    cases hbody : activateBody monitors selected opacity recv states i with
    | none =>
      have hcond := (activateBody_none_iff monitors selected opacity recv
        states i hm).mp hbody
      constructor
      · intro _
        exact ⟨i, by simp, hcond⟩
      · intro _
        unfold activateGo
        rw [hbody]
    | some out =>
      obtain ⟨s1, effs1⟩ := out
      have hlen := activateBody_some_length hbody
      have hnone : ¬(selected.length ≤ i ∨
          (selected.getD i false = true ∧ states.length ≤ i)) := by
        intro hcond
        rw [(activateBody_none_iff monitors selected opacity recv
          states i hm).mpr hcond] at hbody
        exact Option.noConfusion hbody
      have hih := ih s1 (fun j hj => hb j (by simp [hj]))
      have hstep : activateGo monitors selected opacity recv (i :: rest) states =
          match activateBody monitors selected opacity recv states i with
          | none => none
          | some (states1, effs1) =>
            match activateGo monitors selected opacity recv rest states1 with
            | none => none
            | some (states2, effs2) => some (states2, effs1 ++ effs2) := rfl
      have hgoeq : activateGo monitors selected opacity recv (i :: rest) states =
          none ↔ activateGo monitors selected opacity recv rest s1 = none := by
        rw [hstep, hbody]
        cases hgo : activateGo monitors selected opacity recv rest s1 with
        | none => simp [hgo]
        | some out2 =>
          obtain ⟨s2, effs2⟩ := out2
          simp [hgo]
      rw [hgoeq, hih]
      constructor
      · intro ⟨j, hj, hc⟩
        refine ⟨j, by simp [hj], ?_⟩
        rwa [hlen] at hc
      · intro ⟨j, hj, hc⟩
        rcases List.mem_cons.mp hj with hji | hjr
        · subst hji
          exact absurd hc hnone
        · exact ⟨j, hjr, by rwa [← hlen] at hc⟩

/-- Panic characterisation of `activate`: it panics iff the selected slice
is shorter than the monitor list, or some *selected* index has no entry in
the states vector. -/
theorem activate_none_iff (states : List OverlayState)
    (monitors : List MonitorInfo) (selected : List Bool) (opacity : Nat)
    (recv : Nat → Option Nat) :
    activate states monitors selected opacity recv = none ↔
      (selected.length < monitors.length ∨
       ∃ i, i < monitors.length ∧ selected.getD i false = true ∧
         states.length ≤ i) := by
  unfold activate
  rw [activateGo_none_iff monitors selected opacity recv
    (List.range monitors.length) states (fun i hi => List.mem_range.mp hi)]
  constructor
  · intro ⟨i, hi, hc⟩
    have hilt := List.mem_range.mp hi
    rcases hc with hle | ⟨hsel, hst⟩
    · left
      omega
    · right
      exact ⟨i, hilt, hsel, hst⟩
  · intro h
    rcases h with hlt | ⟨i, hi, hsel, hst⟩
    · exact ⟨selected.length, List.mem_range.mpr hlt, Or.inl le_rfl⟩
    · exact ⟨i, List.mem_range.mpr hi, Or.inr ⟨hsel, hst⟩⟩

/-! ### Matching-pairs invariant and effect projections -/

/-- The provable direction of the spec's matching-pairs invariant: a state
with a recorded window handle also holds a thread join handle. -/
def pairInv (states : List OverlayState) : Prop :=
  ∀ st ∈ states, st.hwnd.isSome = true → st.handle.isSome = true

theorem activateBody_preserves_pairInv {monitors : List MonitorInfo}
    {selected : List Bool} {opacity : Nat} {recv : Nat → Option Nat}
    {states : List OverlayState} {i : Nat} {s1 : List OverlayState}
    {effs : List Effect}
    (h : activateBody monitors selected opacity recv states i = some (s1, effs))
    (hinv : pairInv states) : pairInv s1 := by
  unfold activateBody at h
  repeat' split at h
  all_goals
    first
      | exact Option.noConfusion h
      | (simp only [Option.some.injEq, Prod.mk.injEq] at h
         obtain ⟨h1, h2⟩ := h
         subst h1
         first
           | exact hinv
           | (intro st hst hhwnd
              rcases List.mem_or_eq_of_mem_set hst with hmem | heq
              · exact hinv st hmem hhwnd
              · subst heq
                rfl))

theorem activateGo_preserves_pairInv {monitors : List MonitorInfo}
    {selected : List Bool} {opacity : Nat} {recv : Nat → Option Nat} :
    ∀ {is : List Nat} {states s2 : List OverlayState} {effs : List Effect},
    activateGo monitors selected opacity recv is states = some (s2, effs) →
    pairInv states → pairInv s2 := by
  intro is
  induction is with
  | nil =>
    intro states s2 effs h hinv
    unfold activateGo at h
    simp only [Option.some.injEq, Prod.mk.injEq] at h
    obtain ⟨h1, _⟩ := h
    subst h1
    exact hinv
  | cons i rest ih =>
    intro states s2 effs h hinv
    unfold activateGo at h
    cases hbody : activateBody monitors selected opacity recv states i with
    | none => rw [hbody] at h; exact Option.noConfusion h
    | some out =>
      obtain ⟨s1, effs1⟩ := out
      rw [hbody] at h
      simp only at h
      cases hgo : activateGo monitors selected opacity recv rest s1 with
      | none => rw [hgo] at h; exact Option.noConfusion h
      | some out2 =>
        obtain ⟨s3, effs2⟩ := out2
        rw [hgo] at h
        simp only [Option.some.injEq, Prod.mk.injEq] at h
        obtain ⟨h1, _⟩ := h
        subst h1
        exact ih hgo (activateBody_preserves_pairInv hbody hinv)

theorem deactivate_pairInv (states : List OverlayState) :
    pairInv (deactivate states).1 := by
  intro st hst hhwnd
  unfold deactivate at hst
  simp only [List.mem_map] at hst
  obtain ⟨_, _, heq⟩ := hst
  rw [← heq] at hhwnd
  simp at hhwnd

theorem newManager_pairInv (n : Nat) : pairInv (newManager n) := by
  intro st hst hhwnd
  unfold newManager at hst
  rw [List.eq_of_mem_replicate hst] at hhwnd
  simp at hhwnd

/-- Every state reachable without direct `register_hwnd` calls satisfies
the handle-side of the matching-pairs invariant. -/
theorem reachableCore_pairInv {s : List OverlayState}
    (h : ReachableCore s) : pairInv s := by
  induction h with
  | new n => exact newManager_pairInv n
  | step hr hreg hstep ih =>
    rename_i s op s2 effs
    cases op with
    | activate monitors selected opacity recv =>
      exact activateGo_preserves_pairInv hstep ih
    | deactivate =>
      unfold mstep at hstep
      simp only [Option.some.injEq] at hstep
      have h1 := congrArg Prod.fst hstep
      simp only at h1
      rw [← h1]
      exact deactivate_pairInv s
    | update_opacity o =>
      unfold mstep at hstep
      simp only [Option.some.injEq, Prod.mk.injEq] at hstep
      obtain ⟨h1, _⟩ := hstep
      subst h1
      exact ih
    | register_hwnd i ptr =>
      exact absurd hreg (by unfold isRegisterOp; simp)

theorem activateBody_spawn_mem {monitors : List MonitorInfo}
    {selected : List Bool} {opacity : Nat} {recv : Nat → Option Nat}
    {states : List OverlayState} {i : Nat} {s1 : List OverlayState}
    {effs : List Effect} {j : Nat} {cfg : OverlayConfig}
    (h : activateBody monitors selected opacity recv states i = some (s1, effs))
    (hmem : Effect.spawn j cfg ∈ effs) :
    j = i ∧ ∃ st, states[i]? = some st ∧ st.hwnd = none := by
  unfold activateBody at h
  repeat' split at h
  all_goals
    first
      | exact Option.noConfusion h
      | (simp only [Option.some.injEq, Prod.mk.injEq] at h
         obtain ⟨h1, h2⟩ := h
         subst h2
         (simp at hmem) <;> (refine ⟨hmem.1, ?_⟩; simp_all))

theorem activateGo_spawn_mem {monitors : List MonitorInfo}
    {selected : List Bool} {opacity : Nat} {recv : Nat → Option Nat} :
    ∀ {is : List Nat} {states s2 : List OverlayState} {effs : List Effect},
    activateGo monitors selected opacity recv is states = some (s2, effs) →
    is.Nodup →
    ∀ {j : Nat} {cfg : OverlayConfig}, Effect.spawn j cfg ∈ effs →
    j ∈ is ∧ ∃ st, states[j]? = some st ∧ st.hwnd = none := by
  intro is
  induction is with
  | nil =>
    intro states s2 effs h _ j cfg hmem
    unfold activateGo at h
    simp only [Option.some.injEq, Prod.mk.injEq] at h
    obtain ⟨_, h2⟩ := h
    rw [← h2] at hmem
    simp at hmem
  | cons i rest ih =>
    intro states s2 effs h hnodup j cfg hmem
    have hnotin : i ∉ rest := (List.nodup_cons.mp hnodup).1
    unfold activateGo at h
    cases hbody : activateBody monitors selected opacity recv states i with
    | none => rw [hbody] at h; exact Option.noConfusion h
    | some out =>
      obtain ⟨s1, effs1⟩ := out
      rw [hbody] at h
      simp only at h
      cases hgo : activateGo monitors selected opacity recv rest s1 with
      | none => rw [hgo] at h; exact Option.noConfusion h
      | some out2 =>
        obtain ⟨s3, effs2⟩ := out2
        rw [hgo] at h
        simp only [Option.some.injEq, Prod.mk.injEq] at h
        obtain ⟨h1, h2⟩ := h
        rw [← h2] at hmem
        rcases List.mem_append.mp hmem with hm1 | hm2
        · obtain ⟨hj, st, hq, hw⟩ := activateBody_spawn_mem hbody hm1
          subst hj
          exact ⟨by simp, st, hq, hw⟩
        · obtain ⟨hjr, st, hq, hw⟩ := ih hgo hnodup.of_cons hm2
          have hne : j ≠ i := fun hji => hnotin (hji ▸ hjr)
          refine ⟨by simp [hjr], st, ?_, hw⟩
          rw [← activateBody_getElem_ne hbody j hne]
          exact hq

theorem spawnIdx_plannedEffects (monitors : List MonitorInfo)
    (selected : List Bool) (opacity : Nat) (recv : Nat → Option Nat)
    (states : List OverlayState) :
    ∀ is : List Nat,
    (plannedEffects monitors selected opacity recv states is).filterMap
        spawnIdx =
      is.filter (fun i => wantsSpawn selected states i) := by
  intro is
  induction is with
  | nil => rfl
  | cons i rest ih =>
    unfold plannedEffects
    cases hws : wantsSpawn selected states i
    · simp [hws, List.filter_cons, ih]
    · cases hr : recv i <;>
        simp [hws, List.filter_cons, ih, List.filterMap_cons,
          List.filterMap_append, spawnIdx]

theorem sendMain_plannedEffects (monitors : List MonitorInfo)
    (selected : List Bool) (opacity : Nat) (recv : Nat → Option Nat)
    (states : List OverlayState) :
    ∀ (is : List Nat) {j ptr : Nat},
    Effect.sendMain j ptr ∈
      plannedEffects monitors selected opacity recv states is →
    recv j = some ptr := by
  intro is
  induction is with
  | nil =>
    intro j ptr h
    simp [plannedEffects] at h
  | cons i rest ih =>
    intro j ptr h
    unfold plannedEffects at h
    rw [List.mem_append] at h
    rcases h with h | h
    · cases hws : wantsSpawn selected states i
      · rw [hws] at h
        simp at h
      · rw [hws] at h
        cases hr : recv i with
        | some p =>
          rw [hr] at h
          simp only [if_true, List.mem_cons, List.mem_singleton,
            List.not_mem_nil, or_false] at h
          rcases h with h | h
          · exact Effect.noConfusion h
          · obtain ⟨hj, hp⟩ := Effect.sendMain.inj h
            subst hj
            subst hp
            exact hr
        | none =>
          rw [hr] at h
          simp at h
    · exact ih h

theorem update_opacity_eq (states : List OverlayState) (o : Nat) :
    update_opacity states o =
      (states.filter (fun s => s.hwnd.isSome)).map
        (fun s => Effect.postOpacity (s.hwnd.getD 0) o) := by
  induction states with
  | nil => rfl
  | cons s rest ih =>
    unfold update_opacity at ih ⊢
    cases h : s.hwnd <;>
      simp [List.filterMap_cons, List.filter_cons, h, ih]

theorem deactivate_effects_eq (states : List OverlayState) :
    (deactivate states).2 =
      (states.filter (fun s => s.hwnd.isSome)).map
        (fun s => Effect.postClose (s.hwnd.getD 0)) := by
  induction states with
  | nil => rfl
  | cons s rest ih =>
    unfold deactivate at ih ⊢
    simp only at ih
    cases h : s.hwnd <;>
      simp [List.filterMap_cons, List.filter_cons, h, ih]

/-! ### Slider arithmetic lemmas -/

/-- The value `opacity_from_mouse` computes once bounds are available. -/
def opacityValue (mouse_x : ℚ) (b : SliderBounds) : Nat :=
  u8cast (rustRound (clamp01 ((mouse_x - b.originX) / b.width) * 255))

theorem clamp01_nonneg (q : ℚ) : 0 ≤ clamp01 q :=
  le_min (le_max_right q 0) (by norm_num)

theorem clamp01_mono {a b : ℚ} (h : a ≤ b) : clamp01 a ≤ clamp01 b :=
  min_le_min (max_le_max h le_rfl) le_rfl

theorem rustRound_eq_round {q : ℚ} (h : 0 ≤ q) : rustRound q = round q :=
  if_pos h

theorem rustRound_mono_nonneg {a b : ℚ} (ha : 0 ≤ a) (h : a ≤ b) :
    rustRound a ≤ rustRound b := by
  rw [rustRound_eq_round ha, rustRound_eq_round (le_trans ha h),
    round_eq, round_eq]
  exact Int.floor_le_floor (by linarith)

theorem u8cast_mono {a b : ℤ} (h : a ≤ b) : u8cast a ≤ u8cast b :=
  Int.toNat_le_toNat (min_le_min le_rfl (max_le_max le_rfl h))

theorem u8cast_le_255 (z : ℤ) : u8cast z ≤ 255 :=
  Int.toNat_le.mpr (min_le_left _ _)

theorem sliderSet_selected (c : Controller) (x : ℚ) :
    (sliderSet c x).1.selected = c.selected := by
  unfold sliderSet
  repeat' split
  all_goals rfl

/-! ### Claim theorems -/

/-- C1, counterexample: the claimed invariant "states[i].hwnd is Some iff
states[i].handle is Some in every reachable OverlayState" is false.  After
`OverlayManager::new(1)` followed by one `activate` on a selected monitor
whose 2-second window-handle receive times out, the reachable state has
`handle = Some` but `hwnd = None`, so the iff fails at index 0. -/
theorem overlay_pairs_iff_cex :
    ReachableAll [⟨none, some ()⟩] ∧
    ¬ (∀ st ∈ ([⟨none, some ()⟩] : List OverlayState),
        (st.hwnd.isSome = true ↔ st.handle.isSome = true)) := by
  constructor
  · exact @ReachableAll.step (newManager 1)
      (MOp.activate [default] [true] 128 (fun _ => none))
      [⟨none, some ()⟩] [Effect.spawn 0 (mkConfig 128 default)]
      (ReachableAll.new 1) rfl
  · intro hf
    have h := hf ⟨none, some ()⟩ (by simp)
    simp at h

/-- C1, amended: in every manager state reachable through `new`, `activate`
and `deactivate` (excluding direct `register_hwnd` calls, which can set
`hwnd` while `handle` is `None`), `states[i].hwnd` being `Some` implies
`states[i].handle` is `Some`; the converse direction fails on a receive
timeout.  Moreover `activate` never spawns an overlay thread for a monitor
whose `hwnd` is already recorded as `Some`. -/
theorem overlay_pairs_amended :
    (∀ s : List OverlayState, ReachableCore s →
      ∀ st ∈ s, st.hwnd.isSome = true → st.handle.isSome = true) ∧
    (∀ (states : List OverlayState) (monitors : List MonitorInfo)
        (selected : List Bool) (opacity : Nat) (recv : Nat → Option Nat)
        (s2 : List OverlayState) (effs : List Effect) (i : Nat)
        (cfg : OverlayConfig),
      activate states monitors selected opacity recv = some (s2, effs) →
      Effect.spawn i cfg ∈ effs →
      ∃ st, states[i]? = some st ∧ st.hwnd = none) := by
  constructor
  · intro s hs st hmem hh
    exact reachableCore_pairInv hs st hmem hh
  · intro states monitors selected opacity recv s2 effs i cfg hact hmem
    exact (activateGo_spawn_mem hact (List.nodup_range _) hmem).2

/-- Witness for C1 (amended) at concrete inputs: a state reached by a
successful activation, and a concrete spawn. -/
theorem overlay_pairs_amended_witness :
    (⟨some 42, some ()⟩ : OverlayState).handle.isSome = true ∧
    (∃ st, ([⟨none, none⟩] : List OverlayState)[0]? = some st ∧
      st.hwnd = none) := by
  constructor
  · exact overlay_pairs_amended.1 [⟨some 42, some ()⟩]
      (@ReachableCore.step (newManager 1)
        (MOp.activate [default] [true] 128 (fun _ => some 42))
        [⟨some 42, some ()⟩]
        [Effect.spawn 0 (mkConfig 128 default), Effect.sendMain 0 42]
        (ReachableCore.new 1) rfl rfl)
      ⟨some 42, some ()⟩ (by simp) (by rfl)
  · exact overlay_pairs_amended.2 [⟨none, none⟩] [default] [true] 128
      (fun _ => none) [⟨none, some ()⟩]
      [Effect.spawn 0 (mkConfig 128 default)] 0 (mkConfig 128 default)
      rfl (by simp)

/-- C10, counterexample: the claim says `activate` panics whenever the
states vector is shorter than the monitor list, but with two monitors, a
length-2 all-false selection and a length-1 states vector the loop never
touches `states[1]` (the `&&` short-circuits on `selected[1] == false`),
so no panic occurs. -/
theorem activate_short_states_no_panic_cex :
    (([⟨none, none⟩] : List OverlayState).length <
      ([default, default] : List MonitorInfo).length) ∧
    activate [⟨none, none⟩] [default, default] [false, false] 128
      (fun _ => none) ≠ none := by
  refine ⟨by decide, ?_⟩
  have h : activate [⟨none, none⟩] [default, default] [false, false] 128
      (fun _ => none) = some ([⟨none, none⟩], []) := rfl
  rw [h]
  exact Option.some_ne_none _

/-- C10, amended: `activate` panics iff the selected slice is shorter than
the monitor list or some *selected* index below `monitors.len()` is outside
the states vector; with both slices at least `monitors.len()` long no
out-of-bounds access occurs; `register_hwnd` silently ignores out-of-range
indices. -/
theorem activate_panic_characterisation :
    (∀ (states : List OverlayState) (monitors : List MonitorInfo)
        (selected : List Bool) (opacity : Nat) (recv : Nat → Option Nat),
      activate states monitors selected opacity recv = none ↔
        (selected.length < monitors.length ∨
         ∃ i, i < monitors.length ∧ selected.getD i false = true ∧
           states.length ≤ i)) ∧
    (∀ (states : List OverlayState) (monitors : List MonitorInfo)
        (selected : List Bool) (opacity : Nat) (recv : Nat → Option Nat),
      monitors.length ≤ selected.length →
      monitors.length ≤ states.length →
      activate states monitors selected opacity recv ≠ none) ∧
    (∀ (states : List OverlayState) (i ptr : Nat), states.length ≤ i →
      register_hwnd states i ptr = states) := by
  refine ⟨?_, ?_, ?_⟩
  · intro states monitors selected opacity recv
    exact activate_none_iff states monitors selected opacity recv
  · intro states monitors selected opacity recv h1 h2 hnone
    rcases (activate_none_iff states monitors selected opacity recv).mp hnone
      with h | ⟨i, hi, _, hst⟩ <;> omega
  · intro states i ptr h
    unfold register_hwnd
    rw [dif_neg (by omega)]

/-- Witness for C10 (amended) at concrete inputs. -/
theorem activate_panic_characterisation_witness :
    activate [⟨none, none⟩] [default] [true] 128 (fun _ => some 5) ≠ none ∧
    register_hwnd [] 3 7 = [] :=
  ⟨activate_panic_characterisation.2.1 [⟨none, none⟩] [default] [true] 128
      (fun _ => some 5) (by decide) (by decide),
   activate_panic_characterisation.2.2 [] 3 7 (by decide)⟩

/-- C2: each control operation issues exactly one unit of work per affected
monitor.  `activate` emits exactly one spawn for each `i < monitors.len()`
with `selected[i]` true and `states[i].hwnd` `None` — in index order and
none for any other index; `update_opacity` posts exactly one
`WM_UPDATE_OPACITY` carrying the given opacity per state with a live
`hwnd` (none for the others); `deactivate` posts exactly one `WM_CLOSE`
per state with a live `hwnd`. -/
theorem one_unit_of_work_per_monitor
    (monitors : List MonitorInfo) (selected : List Bool) (opacity : Nat)
    (recv : Nat → Option Nat) (states s2 : List OverlayState)
    (effs : List Effect)
    (hsel : monitors.length ≤ selected.length)
    (hstl : monitors.length ≤ states.length)
    (hact : activate states monitors selected opacity recv = some (s2, effs)) :
    effs.filterMap spawnIdx =
      (List.range monitors.length).filter
        (fun i => wantsSpawn selected states i) ∧
    (∀ (s : List OverlayState) (o : Nat),
      update_opacity s o =
        (s.filter (fun st => st.hwnd.isSome)).map
          (fun st => Effect.postOpacity (st.hwnd.getD 0) o)) ∧
    (∀ s : List OverlayState,
      (deactivate s).2 =
        (s.filter (fun st => st.hwnd.isSome)).map
          (fun st => Effect.postClose (st.hwnd.getD 0))) := by
  refine ⟨?_, update_opacity_eq, deactivate_effects_eq⟩
  obtain ⟨s3, hgo, _, _⟩ := activateGo_spec monitors selected opacity recv
    (List.range monitors.length) states (List.nodup_range _)
    (fun i hi => by
      have hilt := List.mem_range.mp hi
      exact ⟨hilt, by omega, by omega⟩)
  unfold activate at hact
  rw [hact] at hgo
  simp only [Option.some.injEq, Prod.mk.injEq] at hgo
  obtain ⟨_, heffs⟩ := hgo
  rw [heffs, spawnIdx_plannedEffects]

/-- Witness for C2 at concrete inputs: one selected monitor without an
overlay, receive delivering pointer 7. -/
theorem one_unit_of_work_per_monitor_witness :
    ([Effect.spawn 0 (mkConfig 99 default),
      Effect.sendMain 0 7].filterMap spawnIdx =
      (List.range 1).filter (fun i => wantsSpawn [true] [⟨none, none⟩] i)) :=
  (one_unit_of_work_per_monitor [default] [true] 99 (fun _ => some 7)
    [⟨none, none⟩] [⟨some 7, some ()⟩]
    [Effect.spawn 0 (mkConfig 99 default), Effect.sendMain 0 7]
    (by decide) (by decide) rfl).1

/-- C4: the wait for a freshly spawned overlay's handle uses the 2-second
receive timeout, and when the receive for monitor `i` times out (`recv i =
none`) while `states[i].hwnd` was `None`, the final `states[i].hwnd` is
still `None` and no `(i, ptr)` notification is sent on the main channel. -/
theorem activate_timeout_leaves_no_hwnd
    (monitors : List MonitorInfo) (selected : List Bool) (opacity : Nat)
    (recv : Nat → Option Nat) (states s2 : List OverlayState)
    (effs : List Effect) (i : Nat)
    (hsel : monitors.length ≤ selected.length)
    (hstl : monitors.length ≤ states.length)
    (hi : i < monitors.length)
    (hrecv : recv i = none)
    (hnone : (states.getD i default).hwnd = none)
    (hact : activate states monitors selected opacity recv = some (s2, effs)) :
    RECV_TIMEOUT_SECS = 2 ∧
    (∃ st, s2[i]? = some st ∧ st.hwnd = none) ∧
    (∀ ptr, Effect.sendMain i ptr ∉ effs) := by
  obtain ⟨s3, hgo, hlen, hpt⟩ := activateGo_spec monitors selected opacity recv
    (List.range monitors.length) states (List.nodup_range _)
    (fun j hj => by
      have hjlt := List.mem_range.mp hj
      exact ⟨hjlt, by omega, by omega⟩)
  unfold activate at hact
  rw [hact] at hgo
  simp only [Option.some.injEq, Prod.mk.injEq] at hgo
  obtain ⟨hs23, heffs⟩ := hgo
  refine ⟨rfl, ?_, ?_⟩
  · subst hs23
    rw [hpt i, if_pos (List.mem_range.mpr hi)]
    refine ⟨afterActivate selected recv states i, rfl, ?_⟩
    unfold afterActivate
    cases hws : wantsSpawn selected states i
    · simpa using hnone
    · simp [hrecv]
      rw [← List.getD_eq_getElem?_getD]
      exact hnone
  · intro ptr hmem
    rw [heffs] at hmem
    have hcontr := sendMain_plannedEffects monitors selected opacity recv
      states _ hmem
    rw [hrecv] at hcontr
    exact Option.noConfusion hcontr

/-- Witness for C4 at concrete inputs: one selected monitor, receive times
out. -/
theorem activate_timeout_leaves_no_hwnd_witness :
    RECV_TIMEOUT_SECS = 2 ∧
    (∃ st, ([⟨none, some ()⟩] : List OverlayState)[0]? = some st ∧
      st.hwnd = none) ∧
    (∀ ptr, Effect.sendMain 0 ptr ∉
      [Effect.spawn 0 (mkConfig 128 default)]) :=
  activate_timeout_leaves_no_hwnd [default] [true] 128 (fun _ => none)
    [⟨none, none⟩] [⟨none, some ()⟩] [Effect.spawn 0 (mkConfig 128 default)]
    0 (by decide) (by decide) (by decide) rfl (by decide) rfl

/-- C5: a failure during overlay window creation is printed and terminates
only the affected thread: the closure run by `spawn_overlay` appends
exactly one `eprintln` line carrying the error to the log, and the
manager's states (hence every other overlay and `active_count`) are left
untouched. -/
theorem overlay_thread_failure_isolated (cfg : OverlayConfig)
    (createdHwnd : Option Nat) (states : List OverlayState)
    (log : List String) (e : String)
    (hfail : create_win32_overlay cfg createdHwnd = Except.error e) :
    threadFinish states log cfg createdHwnd =
      (states, log ++ ["Overlay thread error: " ++ e]) ∧
    active_count (threadFinish states log cfg createdHwnd).1 =
      active_count states := by
  constructor
  · unfold threadFinish overlayThreadOutput
    rw [hfail]
  · rfl

/-- Witness for C5 at concrete inputs: `CreateWindowExW` fails while one
other overlay is alive. -/
theorem overlay_thread_failure_isolated_witness :
    threadFinish [⟨some 3, some ()⟩] [] ⟨128, 0, 0, 0, 0⟩ none =
      ([⟨some 3, some ()⟩],
       [] ++ ["Overlay thread error: " ++ "CreateWindowExW failed"]) ∧
    active_count (threadFinish [⟨some 3, some ()⟩] [] ⟨128, 0, 0, 0, 0⟩
      none).1 = active_count [⟨some 3, some ()⟩] :=
  overlay_thread_failure_isolated ⟨128, 0, 0, 0, 0⟩ none [⟨some 3, some ()⟩]
    [] "CreateWindowExW failed" rfl

/-- C6: window-class registration is one-time and idempotent.  Once the
stored atom is nonzero, every further call returns `Ok(())` without another
`RegisterClassW` attempt and leaves the atom unchanged; and a first
successful call starting from atom 0 always stores a nonzero atom. -/
theorem register_overlay_class_idempotent (s : ClassState) (o : Nat)
    (h : s.atom ≠ 0) :
    register_overlay_class s o = (s, true, 0) ∧
    (∀ o2 : Nat, (register_overlay_class ⟨0⟩ o2).2.1 = true →
      (register_overlay_class ⟨0⟩ o2).1.atom ≠ 0) := by
  constructor
  · unfold register_overlay_class
    rw [if_pos h]
  · intro o2 hok
    unfold register_overlay_class at hok ⊢
    simp only [ne_eq, not_true_eq_false, if_false] at hok ⊢
    by_cases hz : o2 % 65536 = 0
    · rw [if_pos hz] at hok
      simp at hok
    · rw [if_neg hz] at hok ⊢
      simpa using hz

/-- Witness for C6 at concrete inputs: atom already registered as 7. -/
theorem register_overlay_class_idempotent_witness :
    register_overlay_class ⟨7⟩ 0 = (⟨7⟩, true, 0) :=
  (register_overlay_class_idempotent ⟨7⟩ 0 (by decide)).1

/-- C7: broadcasting an opacity change is a pure message post.  A
`update_opacity` step leaves the manager's states (every `hwnd` and
`handle` field) exactly as they were, so `active_count` is unchanged. -/
theorem update_opacity_no_state_change (states : List OverlayState)
    (o : Nat) (out : List OverlayState × List Effect)
    (h : mstep states (MOp.update_opacity o) = some out) :
    out.1 = states ∧ (∀ j : Nat, out.1[j]? = states[j]?) ∧
    active_count out.1 = active_count states := by
  unfold mstep at h
  simp only [Option.some.injEq] at h
  subst h
  exact ⟨rfl, fun j => rfl, rfl⟩

/-- Witness for C7 at concrete inputs: one live overlay, opacity 9. -/
theorem update_opacity_no_state_change_witness :
    (([⟨some 5, some ()⟩], update_opacity [⟨some 5, some ()⟩] 9) :
        List OverlayState × List Effect).1 = [⟨some 5, some ()⟩] ∧
    (∀ j : Nat, ((([⟨some 5, some ()⟩], update_opacity [⟨some 5, some ()⟩] 9) :
        List OverlayState × List Effect).1)[j]? =
      ([⟨some 5, some ()⟩] : List OverlayState)[j]?) ∧
    active_count (([⟨some 5, some ()⟩],
        update_opacity [⟨some 5, some ()⟩] 9) :
        List OverlayState × List Effect).1 =
      active_count [⟨some 5, some ()⟩] :=
  update_opacity_no_state_change [⟨some 5, some ()⟩] 9 _ rfl

/-- C3: for every `OverlayConfig`, the overlay window created by
`create_win32_overlay` is click-through and input-transparent (extended
style includes `WS_EX_TRANSPARENT`, window style includes `WS_DISABLED`),
always on top (`WS_EX_TOPMOST` and positioned with `HWND_TOPMOST`), a
layered window (`WS_EX_LAYERED`) whose alpha equals `config.opacity`
(`SetLayeredWindowAttributes` with `LWA_ALPHA`), and `wnd_proc` paints it
solid black on `WM_PAINT`; on success `create_win32_overlay` applies
exactly these attributes and sends the handle once. -/
theorem overlay_window_attributes (cfg : OverlayConfig) :
    ((overlaySpec cfg).exStyle &&& WS_EX_TRANSPARENT = WS_EX_TRANSPARENT ∧
     (overlaySpec cfg).style &&& WS_DISABLED = WS_DISABLED) ∧
    ((overlaySpec cfg).exStyle &&& WS_EX_TOPMOST = WS_EX_TOPMOST ∧
     (overlaySpec cfg).insertAfter = HWND_TOPMOST) ∧
    ((overlaySpec cfg).exStyle &&& WS_EX_LAYERED = WS_EX_LAYERED ∧
     (overlaySpec cfg).alpha = cfg.opacity ∧
     (overlaySpec cfg).alphaFlags = LWA_ALPHA) ∧
    (∀ w : Nat, wnd_proc WM_PAINT w = WndAction.paint 0) ∧
    (∀ h : Nat, h ≠ 0 →
      create_win32_overlay cfg (some h) =
        Except.ok (h, overlaySpec cfg, [h])) := by
  refine ⟨⟨?_, ?_⟩, ⟨?_, rfl⟩, ⟨?_, rfl, rfl⟩, fun w => rfl,
    fun h hh => ?_⟩
  · simp only [overlaySpec]
    decide
  · simp only [overlaySpec]
    decide
  · simp only [overlaySpec]
    decide
  · simp only [overlaySpec]
    decide
  · unfold create_win32_overlay
    simp only [if_neg hh]

/-- Witness for C3 at a concrete config and window handle. -/
theorem overlay_window_attributes_witness :
    (1 : Nat) ≠ 0 ∧
    create_win32_overlay ⟨128, 0, 0, 1920, 1080⟩ (some 1) =
      Except.ok (1, overlaySpec ⟨128, 0, 0, 1920, 1080⟩, [1]) :=
  ⟨by decide,
   (overlay_window_attributes ⟨128, 0, 0, 1920, 1080⟩).2.2.2.2 1 (by decide)⟩

/-- C8: monitor selection is frozen while overlays are active.  The
monitor-row and checkbox click handlers are guarded by
`overlays_active == false`, and no other handler writes `selected`, so any
UI event step taken in a state with `overlays_active = true` leaves the
`selected` vector unchanged. -/
theorem selection_frozen_while_active (c : Controller)
    (hactive : c.overlays_active = true) (ev : UIEvent)
    (c2 : Controller) (effs : List Effect)
    (h : uiStep c ev = some (c2, effs)) :
    c2.selected = c.selected := by
  cases ev with
  | rowClick i =>
    simp only [uiStep] at h
    unfold toggleSelected at h
    rw [hactive, if_pos rfl] at h
    simp only [Option.some.injEq, Prod.mk.injEq] at h
    rw [← h.1]
  | checkboxClick i =>
    simp only [uiStep] at h
    unfold toggleSelected at h
    rw [hactive, if_pos rfl] at h
    simp only [Option.some.injEq, Prod.mk.injEq] at h
    rw [← h.1]
  | toggleSwitch recv =>
    simp only [uiStep] at h
    rw [hactive, if_pos rfl] at h
    simp only [Option.some.injEq, Prod.mk.injEq] at h
    rw [← h.1]
  | sliderMouseDown x =>
    simp only [uiStep] at h
    simp only [Option.some.injEq] at h
    have h1 := congrArg Prod.fst h
    simp only at h1
    rw [← h1]
    exact sliderSet_selected c x
  | sliderMouseMove x pressed =>
    simp only [uiStep] at h
    cases pressed with
    | true =>
      rw [if_pos rfl] at h
      simp only [Option.some.injEq] at h
      have h1 := congrArg Prod.fst h
      simp only at h1
      rw [← h1]
      exact sliderSet_selected c x
    | false =>
      rw [if_neg Bool.false_ne_true] at h
      simp only [Option.some.injEq, Prod.mk.injEq] at h
      rw [← h.1]
  | presetClick percent =>
    simp only [uiStep] at h
    simp only [Option.some.injEq, Prod.mk.injEq] at h
    rw [← h.1]
  | prepaintBounds b =>
    simp only [uiStep] at h
    simp only [Option.some.injEq, Prod.mk.injEq] at h
    rw [← h.1]
  | renderDrain =>
    simp only [uiStep] at h
    simp only [Option.some.injEq, Prod.mk.injEq] at h
    rw [← h.1]

/-- Witness for C8: a concrete active controller and a monitor-row click. -/
theorem selection_frozen_while_active_witness :
    ({ monitors := [default]
     , selected := [true]
     , overlays_active := true
     , states := [⟨some 1, some ()⟩]
     , opacity := 50
     , pending := []
     , slider_bounds := none } : Controller).selected =
    ({ monitors := [default]
     , selected := [true]
     , overlays_active := true
     , states := [⟨some 1, some ()⟩]
     , opacity := 50
     , pending := []
     , slider_bounds := none } : Controller).selected :=
  selection_frozen_while_active
    { monitors := [default]
    , selected := [true]
    , overlays_active := true
    , states := [⟨some 1, some ()⟩]
    , opacity := 50
    , pending := []
    , slider_bounds := none } rfl (UIEvent.rowClick 0) _ [] rfl

/-- C9: `opacity_from_mouse` is total and well-ranged.  With captured
bounds it returns `Some` of the value obtained by clamping the relative
fraction to `[0, 1]` before scaling by 255 (a valid `u8`, at most 255); it
returns `None` exactly when no bounds have been captured; and for fixed
bounds of positive width the returned opacity is monotonically
non-decreasing in the mouse x position. -/
theorem opacity_from_mouse_spec :
    (∀ (x : ℚ) (b : SliderBounds),
      opacity_from_mouse x (some b) = some (opacityValue x b)) ∧
    (∀ (x : ℚ) (b : SliderBounds), opacityValue x b ≤ 255) ∧
    (∀ (x : ℚ) (bounds : Option SliderBounds),
      opacity_from_mouse x bounds = none ↔ bounds = none) ∧
    (∀ (x y : ℚ) (b : SliderBounds), 0 < b.width → x ≤ y →
      opacityValue x b ≤ opacityValue y b) := by
  refine ⟨fun x b => rfl, fun x b => u8cast_le_255 _, ?_, ?_⟩
  · intro x bounds
    cases bounds <;> simp [opacity_from_mouse]
  · intro x y b hw hxy
    unfold opacityValue
    apply u8cast_mono
    apply rustRound_mono_nonneg
    · exact mul_nonneg (clamp01_nonneg _) (by norm_num)
    · apply mul_le_mul_of_nonneg_right _ (by norm_num)
      apply clamp01_mono
      rw [div_le_div_iff_of_pos_right hw]
      linarith

/-- Witness for C9 at concrete inputs: bounds of width 8 at origin 1,
mouse positions 2 and 5. -/
theorem opacity_from_mouse_spec_witness :
    (0 : ℚ) < (⟨1, 8⟩ : SliderBounds).width ∧ (2 : ℚ) ≤ 5 ∧
    opacityValue 2 ⟨1, 8⟩ ≤ opacityValue 5 ⟨1, 8⟩ :=
  ⟨by decide, by decide,
   opacity_from_mouse_spec.2.2.2 2 5 ⟨1, 8⟩ (by decide) (by decide)⟩

end OLEDCare
